import Mathlib

/-!
# The spec model of `unnest` (`src/Spec.h`)

A shallow embedding of `struct Spec` and `struct SpecMatch` with their
constructors, `set_terminal`, the two `to_string` and the constant `NilSpec`,
and of the matcher that `Spec.h` declares, followed by the properties of the
terminality analysis, of the diagnostic rendering and of matching.

Conventions of the embedding

* `vector<T>` is `List T`; `push_back`/`insert` are list operations.
* `int` is `Int`: positions are stored, compared and looked up in the filter
  vectors, no arithmetic is done on them.
* `string` is `String`.
* `SEXP` is R's object handle.  `Spec.h` observes a handle in two ways only:
  comparison with `R_NilValue` and `CHAR(.)`.
* A member function that mutates `*this` returns the new value.
* `match` is defined outside `Spec.h`; what stands for it here follows the
  specification and says so in its doc comment.
-/

namespace Unnest

/-- Modelled from the spec: the host runtime's object handle `SEXP`, declared in
R's headers and not in this repository.  The handle is `R_NilValue`, an interned
character string (`CHARSXP`, whose handle identity is the identity of its
characters), or some other R object, told apart by its address. -/
inductive SEXP where
  | R_NilValue : SEXP
  | CHARSXP (s : String) : SEXP
  | OTHER (addr : Nat) : SEXP
  deriving DecidableEq, Repr

/-- Modelled from the spec: R's accessor `CHAR(x)`: the characters of a
`CHARSXP`; applied to any other object it raises an R error. -/
def CHAR : SEXP → Except String String
  | SEXP.CHARSXP s => Except.ok s
  | _ => Except.error "CHAR() can only be applied to a CHARSXP"

/-- The enumeration `Spec::Stack {STACK, SPREAD, AUTO}`. -/
inductive Spec.Stack where
  | STACK | SPREAD | AUTO
  deriving DecidableEq, Repr

/-- The enumeration `Spec::Process {ASIS, PASTE, NONE}`. -/
inductive Spec.Process where
  | ASIS | PASTE | NONE
  deriving DecidableEq, Repr

/-- The data members of `struct Spec`, in declaration order (the two constant
name tables are `Spec.process_names` and `Spec.stack_names` below: they are the
same in every object). -/
structure Spec where
  stack : Spec.Stack
  process : Spec.Process
  terminal : Bool
  name : SEXP
  type : String
  include_ixes : List Int
  include_names : List SEXP
  exclude_ixes : List Int
  exclude_names : List SEXP
  children : List Spec
  groups : List (SEXP × List Spec)
  ix_name : SEXP

namespace Spec

/-- The table `process_names = {{ASIS,"ASIS"},{PASTE,"PASTE"},{NONE,"NONE"}}`. -/
def process_names : List (Process × String) :=
  [(Process.ASIS, "ASIS"), (Process.PASTE, "PASTE"), (Process.NONE, "NONE")]

/-- The table `stack_names = {{STACK,"STACK"},{SPREAD,"SPREAD"},{AUTO,"AUTO"}}`. -/
def stack_names : List (Stack × String) :=
  [(Stack.STACK, "STACK"), (Stack.SPREAD, "SPREAD"), (Stack.AUTO, "AUTO")]

/-- The lookup `std::unordered_map::at`: the mapped value, or the exception
`std::out_of_range` when the key is missing. -/
def map_at {K : Type} [BEq K] (m : List (K × String)) (k : K) : Except String String :=
  match m.lookup k with
  | some v => Except.ok v
  | none => Except.error "std::out_of_range"

/-- The constructor `Spec(string type): type(type) {}`; every other member takes
its default member initializer (`stack = AUTO`, `process = NONE`,
`terminal = true`, `name = R_NilValue`, `ix_name = R_NilValue`, empty vectors). -/
def mk_type (type : String) : Spec :=
  { stack := Stack.AUTO
    process := Process.NONE
    terminal := true
    name := SEXP.R_NilValue
    type := type
    include_ixes := []
    include_names := []
    exclude_ixes := []
    exclude_names := []
    children := []
    groups := []
    ix_name := SEXP.R_NilValue }

/-- The default constructor `Spec() {}`: all default member initializers,
`type = ""`. -/
def mk_default : Spec :=
  { stack := Stack.AUTO
    process := Process.NONE
    terminal := true
    name := SEXP.R_NilValue
    type := ""
    include_ixes := []
    include_names := []
    exclude_ixes := []
    exclude_names := []
    children := []
    groups := []
    ix_name := SEXP.R_NilValue }

/-- The member function `void set_terminal()`: first the four emptiness tests,
then the loop over `children` that folds each child's stored flag in. -/
def set_terminal (s : Spec) : Spec :=
  let terminal : Bool :=
    s.include_ixes.length == 0 &&
    s.include_names.length == 0 &&
    s.exclude_ixes.length == 0 &&
    s.exclude_names.length == 0
  { s with terminal := s.children.foldl (fun terminal sp => terminal && sp.terminal) terminal }

/-- The member function `string to_string() const`.  `gnuc` is the value of the
compiler's predefined macro `__GNUC__` (0 when it is not defined): the stack and
process names are written only under `#if __GNUC__ > 5`. -/
def to_string (gnuc : Nat) (s : Spec) : Except String String := do
  let name ← s.include_names.foldlM
    (fun (name : String) (nm : SEXP) => do
      let c ← CHAR nm
      pure ((name ++ c) ++ ","))
    s.type
  let stream := "spec[" ++ name
  let stream ←
    if gnuc > 5 then do
      let st ← map_at stack_names s.stack
      let pr ← map_at process_names s.process
      pure (((stream ++ " stack:") ++ st ++ " process:") ++ pr)
    else pure stream
  pure (((stream ++ " terminal[parent]:") ++ (if s.terminal then "T" else "F")) ++ "]")

end Spec

/-- The constant `const Spec NilSpec = Spec("NIL");`. -/
def NilSpec : Spec := Spec.mk_type "NIL"

/-! ## Editing a finalized tree

The operations a caller performs on a tree between two finalizations: an entry
is put into one of the four filter vectors of a node, and `set_terminal` is run
again on the nodes from the edited one up to the root. -/

/-- One entry for one of the four filter vectors of a `Spec`. -/
inductive FilterEntry where
  | include_ixes (ix : Int) : FilterEntry
  | include_names (nm : SEXP) : FilterEntry
  | exclude_ixes (ix : Int) : FilterEntry
  | exclude_names (nm : SEXP) : FilterEntry
  deriving DecidableEq, Repr

/-- The list `l` with `e` put in before position `k` (`vector::insert`; at the end,
as `push_back` does, when `k` is the length or more). -/
def insert_entry {α : Type} (l : List α) (k : Nat) (e : α) : List α :=
  l.take k ++ e :: l.drop k

namespace Spec

/-- The spec `s` with the single entry `e` added at position `k` of the vector
the entry belongs to; no other member is touched. -/
def add_entry (s : Spec) (e : FilterEntry) (k : Nat) : Spec :=
  match e with
  | FilterEntry.include_ixes ix => { s with include_ixes := insert_entry s.include_ixes k ix }
  | FilterEntry.include_names nm => { s with include_names := insert_entry s.include_names k nm }
  | FilterEntry.exclude_ixes ix => { s with exclude_ixes := insert_entry s.exclude_ixes k ix }
  | FilterEntry.exclude_names nm => { s with exclude_names := insert_entry s.exclude_names k nm }

/-- The node reached from `s` by the chain of child positions `path`
(`children[i]` at each step); `none` when a position is out of range. -/
def descend : List Nat → Spec → Option Spec
  | [], s => some s
  | i :: rest, s =>
    match s.children[i]? with
    | none => none
    | some c => descend rest c

/-- Replace the node at `path` by `f` of it and run `set_terminal` on every node
of the path, the edited node first and the root last. -/
def edit_and_refinalize (f : Spec → Spec) : List Nat → Spec → Option Spec
  | [], d => some (f d).set_terminal
  | i :: rest, s =>
    match s.children[i]? with
    | none => none
    | some c =>
      match edit_and_refinalize f rest c with
      | none => none
      | some c1 => some (set_terminal { s with children := s.children.set i c1 })

end Spec

/-! ## Finalizing a whole tree

`set_terminal` reads the stored flag of each child, so a tree is finalized from
the leaves up: every node after its children and after the members of its
groups. -/

mutual
/-- One post-order pass of `set_terminal` over the tree of `s`: the children and
the members of the groups are finalized first, then the node itself. -/
def Spec.finalize : Spec → Spec
  | ⟨stack, process, terminal, name, type, include_ixes, include_names, exclude_ixes,
      exclude_names, children, groups, ix_name⟩ =>
    Spec.set_terminal ⟨stack, process, terminal, name, type, include_ixes, include_names,
      exclude_ixes, exclude_names, finalize_all children, finalize_groups groups, ix_name⟩
/-- The post-order pass over each spec of a vector of specs. -/
def finalize_all : List Spec → List Spec
  | [] => []
  | c :: cs => c.finalize :: finalize_all cs
/-- The post-order pass over the members of each group. -/
def finalize_groups : List (SEXP × List Spec) → List (SEXP × List Spec)
  | [] => []
  | (g, ms) :: gs => (g, finalize_all ms) :: finalize_groups gs
end

mutual
/-- Some spec of the subtree of `s`, reached through `children` or through the
members of `groups` (`s` itself included), has a non-empty filter vector. -/
def Spec.filter_in_subtree : Spec → Bool
  | ⟨_, _, _, _, _, include_ixes, include_names, exclude_ixes, exclude_names, children,
      groups, _⟩ =>
    !(include_ixes.length == 0 && include_names.length == 0 &&
      exclude_ixes.length == 0 && exclude_names.length == 0) ||
    filter_in_any children || filter_in_groups groups
/-- Some spec of the vector has a filter in its subtree. -/
def filter_in_any : List Spec → Bool
  | [] => false
  | c :: cs => c.filter_in_subtree || filter_in_any cs
/-- Some member of some group has a filter in its subtree. -/
def filter_in_groups : List (SEXP × List Spec) → Bool
  | [] => false
  | (_, ms) :: gs => filter_in_any ms || filter_in_groups gs
end

mutual
/-- Some spec reached from `s` through chains of `children` only (`s` itself
included) has a non-empty filter vector. -/
def Spec.filter_below_children : Spec → Bool
  | ⟨_, _, _, _, _, include_ixes, include_names, exclude_ixes, exclude_names, children,
      _, _⟩ =>
    !(include_ixes.length == 0 && include_names.length == 0 &&
      exclude_ixes.length == 0 && exclude_names.length == 0) ||
    filter_below_any children
/-- Some spec of the vector has a filter below it along `children`. -/
def filter_below_any : List Spec → Bool
  | [] => false
  | c :: cs => c.filter_below_children || filter_below_any cs
end

/-! ## The rendering of `to_string`, in closed form -/

/-- The name `stack_names` holds for a stack mode. -/
def Spec.Stack.name : Spec.Stack → String
  | Spec.Stack.STACK => "STACK"
  | Spec.Stack.SPREAD => "SPREAD"
  | Spec.Stack.AUTO => "AUTO"

/-- The name `process_names` holds for a process mode. -/
def Spec.Process.name : Spec.Process → String
  | Spec.Process.ASIS => "ASIS"
  | Spec.Process.PASTE => "PASTE"
  | Spec.Process.NONE => "NONE"

/-- Every string of the list in order, each followed by a comma. -/
def comma_terminated : List String → String
  | [] => ""
  | n :: ns => (n ++ ",") ++ comma_terminated ns

/-! ## Match records (`struct SpecMatch`) -/

/-- The data members of `struct SpecMatch`. -/
structure SpecMatch where
  ix : Int
  spec_name : SEXP
  elem_name : SEXP
  obj : SEXP
  deriving DecidableEq, Repr

namespace SpecMatch

/-- The constructor `SpecMatch(int ix, SEXP spec_name, SEXP obj)`.  Its initializer
list names `ix`, `spec_name` and `obj` only, and the member `elem_name` has no
default member initializer (`SEXP spec_name, elem_name, obj;`): it is left
default-initialized, a handle of indeterminate value.  `junk` is that value, the
handle the storage of the object happened to hold. -/
def mk3 (junk : SEXP) (ix : Int) (spec_name obj : SEXP) : SpecMatch :=
  { ix := ix, spec_name := spec_name, elem_name := junk, obj := obj }

/-- The constructor `SpecMatch(int ix, SEXP spec_name, SEXP elem_name, SEXP obj)`. -/
def mk4 (ix : Int) (spec_name elem_name obj : SEXP) : SpecMatch :=
  { ix := ix, spec_name := spec_name, elem_name := elem_name, obj := obj }

/-- The member function `string SpecMatch::to_string() const`: a name equal to
`R_NilValue` is written as `NULL`, any other through `CHAR`. -/
def to_string (m : SpecMatch) : Except String String := do
  let sn ← if m.spec_name = SEXP.R_NilValue then pure "NULL" else CHAR m.spec_name
  let en ← if m.elem_name = SEXP.R_NilValue then pure "NULL" else CHAR m.elem_name
  pure ((((("match[ix:" ++ toString m.ix) ++ " spec_name:") ++ sn) ++ " elem_name:") ++ en ++ "]")

end SpecMatch

/-! ## The matcher

`Spec.h` declares `vector<SpecMatch> match(SEXP obj) const;` and holds no
definition of it.  The definitions of this section follow the description of the
matcher in the specification (its section 4.2, with the error rules of section 7
and the boundary of section 6). -/

/-- Modelled from the spec: the nested value the matcher walks, "a generic
tree-shaped value model": a value is a scalar or a container; a container
enumerates its elements in source order, each with an optional name
(`R_NilValue` when the element has none) and its position, the index in the list.
`obj` is the handle of the value itself, what a match record borrows.  A value
type is not declared in `Spec.h`, which passes the bare handle. -/
inductive Value where
  | scalar (obj : SEXP) : Value
  | container (obj : SEXP) (elems : List (SEXP × Value)) : Value

/-- The handle of a value. -/
def Value.obj : Value → SEXP
  | Value.scalar obj => obj
  | Value.container obj _ => obj

/-- Modelled from the spec: a structural-mismatch failure, "surfaced to the caller
with enough context (spec node description, position)": the type of the spec node
and the position of the offending element, `-1` when the value is the one handed
to the top-level call.  Its definition is not in `Spec.h`. -/
structure Mismatch where
  spec_type : String
  ix : Int
  deriving DecidableEq, Repr

/-- Modelled from the spec: what the definition of `match`, absent from `Spec.h`,
hands back: the ordered sequence of match records, and the structural mismatches
met on the way ("a structural mismatch aborts the branch's contribution but
sibling branches already computed are still valid and returned"). -/
structure MatchResult where
  records : List SpecMatch
  mismatches : List Mismatch
  deriving DecidableEq, Repr

/-- The results of successive branches put one after the other, in order. -/
def MatchResult.concat (rs : List MatchResult) : MatchResult :=
  { records := rs.flatMap (fun r => r.records)
    mismatches := rs.flatMap (fun r => r.mismatches) }

/-- Modelled from the spec: steps 1 and 2 of `match`, whose definition is not in
`Spec.h`.  "If `spec.terminal` is true, every element is eligible"; otherwise an
element at position `p` with name `n` is eligible iff the include test and the
exclude test pass.  The include test is that of the data model: the two include
vectors are "independent allow-lists, unioned", "if either is non-empty, only
elements satisfying at least one listed criterion are eligible", and empty
include vectors put no restriction; so it passes when both vectors are empty,
when `p` is in `include_ixes`, or when `n` is in `include_names`.  The exclude
test is "p ∉ `exclude_ixes` AND n ∉ `exclude_names`". -/
def Spec.eligible (s : Spec) (p : Int) (n : SEXP) : Bool :=
  if s.terminal then true
  else
    ((decide (s.include_ixes = []) && decide (s.include_names = [])) ||
      (decide (p ∈ s.include_ixes) || decide (n ∈ s.include_names))) &&
    (!decide (p ∈ s.exclude_ixes) && !decide (n ∈ s.exclude_names))

/-- Modelled from the spec: the eligibility scan of `match` (absent from `Spec.h`):
the elements in source order, each with its position, the eligible ones kept. -/
def Spec.eligible_elements (s : Spec) (elems : List (SEXP × Value)) :
    List (Nat × SEXP × Value) :=
  elems.enum.filter (fun x => s.eligible (x.1 : Int) x.2.1)

/-- Modelled from the spec: the tag a group puts on the matches of its members
(part of `match`, absent from `Spec.h`): "the innermost explicit child name wins;
absent that, the group alias applies". -/
def tag_group (group_alias : SEXP) (r : MatchResult) : MatchResult :=
  { r with
    records := r.records.map (fun m =>
      if m.spec_name = SEXP.R_NilValue then { m with spec_name := group_alias } else m) }

mutual
/-- Modelled from the spec: `match(spec, value)`, declared in `Spec.h` and defined
outside it.  The eligible elements, by the test of `Spec.eligible`, are taken in
source order (steps 1, 2, 5).  For each of them (step 3): a spec node with no children and no groups emits one leaf
record `SpecMatch{ix: p, spec_name: spec.name, elem_name: n, obj: element}`;
otherwise each child in declaration order, then each group in declaration order,
is matched against the element, and an element that is not a container is a
structural mismatch.  A value that is not a container is a structural mismatch
too.  The record carries the position and `ix_name` stays on the spec node
("read from the originating Spec node, not duplicated onto each record"). -/
def Spec.match_obj : Spec → Value → MatchResult
  | ⟨_, _, terminal, name, type, include_ixes, include_names, exclude_ixes, exclude_names,
      children, groups, _⟩, v =>
    match v with
    | Value.scalar _ => { records := [], mismatches := [{ spec_type := type, ix := -1 }] }
    | Value.container _ elems =>
      MatchResult.concat
        ((elems.enum.filter (fun x =>
            if terminal then true
            else
              ((decide (include_ixes = []) && decide (include_names = [])) ||
                (decide ((x.1 : Int) ∈ include_ixes) || decide (x.2.1 ∈ include_names))) &&
              (!decide ((x.1 : Int) ∈ exclude_ixes) && !decide (x.2.1 ∈ exclude_names)))).map
          (fun x =>
            if children.isEmpty && groups.isEmpty then
              { records := [SpecMatch.mk4 (x.1 : Int) name x.2.1 x.2.2.obj], mismatches := [] }
            else
              match x.2.2 with
              | Value.scalar _ =>
                { records := [], mismatches := [{ spec_type := type, ix := (x.1 : Int) }] }
              | Value.container obj sub =>
                MatchResult.concat
                  [match_all children (Value.container obj sub),
                   match_groups groups (Value.container obj sub)]))
/-- Modelled from the spec: every spec of the list matched against the same
element, in declaration order, the results concatenated. -/
def match_all : List Spec → Value → MatchResult
  | [], _ => { records := [], mismatches := [] }
  | c :: cs, v => MatchResult.concat [c.match_obj v, match_all cs v]
/-- Modelled from the spec: every group in declaration order: its members matched
against the element, the concatenation tagged with the group alias. -/
def match_groups : List (SEXP × List Spec) → Value → MatchResult
  | [], _ => { records := [], mismatches := [] }
  | (g, ms) :: gs, v => MatchResult.concat [tag_group g (match_all ms v), match_groups gs v]
end

/-- Modelled from the spec: step 3 of `match` (absent from `Spec.h`) on its own,
what `match_obj` does with one eligible element `x` (position, name, element):
the leaf record, or the matches of the children and of the groups. -/
def Spec.emit (s : Spec) (x : Nat × SEXP × Value) : MatchResult :=
  if s.children.isEmpty && s.groups.isEmpty then
    { records := [SpecMatch.mk4 (x.1 : Int) s.name x.2.1 x.2.2.obj], mismatches := [] }
  else
    match x.2.2 with
    | Value.scalar _ =>
      { records := [], mismatches := [{ spec_type := s.type, ix := (x.1 : Int) }] }
    | Value.container obj sub =>
      MatchResult.concat
        [match_all s.children (Value.container obj sub),
         match_groups s.groups (Value.container obj sub)]

/-- The entry `e` is one of those the monotonicity property is about: an exclude
entry, or an include entry for a spec `s` whose include set is empty, both
`include_ixes` and `include_names`. -/
def Spec.narrowing_entry (s : Spec) : FilterEntry → Prop
  | FilterEntry.include_ixes _ => s.include_ixes = [] ∧ s.include_names = []
  | FilterEntry.include_names _ => s.include_ixes = [] ∧ s.include_names = []
  | FilterEntry.exclude_ixes _ => True
  | FilterEntry.exclude_names _ => True

/-! ## Example trees -/

namespace Examples

/-- A spec with no filter, no child and no group. -/
def leaf : Spec := Spec.mk_type "leaf"

/-- A group member that excludes the name `x`; its stored flag is already `false`. -/
def filtered_member : Spec :=
  { Spec.mk_type "member" with exclude_names := [SEXP.CHARSXP "x"], terminal := false }

/-- A node with the one child `leaf`. -/
def parent_of_leaf : Spec :=
  { Spec.mk_type "list" with children := [leaf] }

/-- The node `parent_of_leaf` with a group `g` added whose member has a filter. -/
def parent_with_group : Spec :=
  { parent_of_leaf with groups := [(SEXP.CHARSXP "g", [filtered_member])] }

/-- A root two levels deep: children `leaf` and `parent_of_leaf`. -/
def two_levels : Spec :=
  { Spec.mk_type "root" with children := [leaf, parent_of_leaf] }

/-- A root with no child and one group `g` whose only member includes position 0;
every flag is the constructor's `true`, as before any finalization. -/
def group_only : Spec :=
  { Spec.mk_type "list" with
    groups := [(SEXP.CHARSXP "g", [{ Spec.mk_type "member" with include_ixes := [0] }])] }

/-- A spec whose filters list entries in one order, some of them twice. -/
def filters_one_way : Spec :=
  { Spec.mk_type "list" with
    include_ixes := [1, 2]
    exclude_names := [SEXP.CHARSXP "a", SEXP.CHARSXP "b", SEXP.CHARSXP "a"] }

/-- The spec `filters_one_way` with the same entries in another order and with
other repetitions. -/
def filters_other_way : Spec :=
  { Spec.mk_type "list" with
    include_ixes := [2, 1, 1]
    exclude_names := [SEXP.CHARSXP "b", SEXP.CHARSXP "a"] }

/-- A non-terminal spec that includes the names `x` and `y`. -/
def names_xy : Spec :=
  { Spec.mk_type "list" with
    include_names := [SEXP.CHARSXP "x", SEXP.CHARSXP "y"], terminal := false }

/-- A non-terminal spec that includes the names `x` and `z`. -/
def names_xz : Spec :=
  { Spec.mk_type "list" with
    include_names := [SEXP.CHARSXP "x", SEXP.CHARSXP "z"], terminal := false }

/-- The spec `names_xy` under another alias, with an exclusion and a child. -/
def names_xy_other : Spec :=
  { names_xy with name := SEXP.CHARSXP "alias", exclude_ixes := [3], children := [leaf] }

/-- A tree with a stale flag: the grandchild includes position 0, and the child
above it still stores `terminal = true`, as before the filter was put in. -/
def stale_grandchild : Spec :=
  { Spec.mk_type "grandchild" with include_ixes := [0], terminal := false }

/-- The intermediate node of the stale tree; its stored flag is `true`. -/
def stale_child : Spec :=
  { Spec.mk_type "child" with children := [stale_grandchild] }

/-- The root of the stale tree. -/
def stale_root : Spec :=
  { Spec.mk_type "root" with children := [stale_child] }

/-- The value `[10, 20, 30]`: a container of three unnamed scalars, each scalar
stood for by a handle of its own. -/
def value_10_20_30 : Value :=
  Value.container (SEXP.OTHER 0)
    [(SEXP.R_NilValue, Value.scalar (SEXP.OTHER 10)),
     (SEXP.R_NilValue, Value.scalar (SEXP.OTHER 20)),
     (SEXP.R_NilValue, Value.scalar (SEXP.OTHER 30))]

/-- The elements of the value `{a: 1, b: 2, c: 3}`. -/
def elems_abc : List (SEXP × Value) :=
  [(SEXP.CHARSXP "a", Value.scalar (SEXP.OTHER 1)),
   (SEXP.CHARSXP "b", Value.scalar (SEXP.OTHER 2)),
   (SEXP.CHARSXP "c", Value.scalar (SEXP.OTHER 3))]

/-- A non-terminal spec with no child and no group that excludes the name `b`. -/
def excluding_b : Spec :=
  { Spec.mk_type "list" with exclude_names := [SEXP.CHARSXP "b"], terminal := false }

/-- A non-terminal spec with no child and no group that includes position 0; its
vector of included names is empty. -/
def including_0 : Spec :=
  { Spec.mk_type "list" with include_ixes := [0], terminal := false }

end Examples

end Unnest

/-! ## Properties of the terminality analysis -/

namespace Unnest

/-- The loop of `set_terminal` ends with `true` exactly when it started from
`true` and every spec it visited has its flag set. -/
theorem foldl_terminal_eq_true (l : List Spec) (b : Bool) :
    l.foldl (fun terminal sp => terminal && sp.terminal) b = true ↔
      b = true ∧ ∀ c ∈ l, c.terminal = true := by
  induction l generalizing b with
  | nil => simp
  | cons c cs ih =>
    simp only [List.foldl_cons, ih, Bool.and_eq_true, List.mem_cons, forall_eq_or_imp]
    tauto

/-- The flag computed by `set_terminal`, as a proposition over the members read. -/
theorem set_terminal_terminal (s : Spec) :
    s.set_terminal.terminal = true ↔
      (s.include_ixes = [] ∧ s.include_names = [] ∧ s.exclude_ixes = [] ∧
        s.exclude_names = [] ∧ ∀ c ∈ s.children, c.terminal = true) := by
  simp only [Spec.set_terminal, foldl_terminal_eq_true, Bool.and_eq_true, beq_iff_eq,
    List.length_eq_zero]
  tauto

/-- C1: after `s.set_terminal()` the flag `terminal` is true if and only if the four
include/exclude vectors of `s` are empty and every spec in `s.children` has its
stored flag true; the children read are those of before the call, which the call
leaves as they are. -/
theorem C1_set_terminal_iff (s : Spec) :
    (s.set_terminal.terminal = true ↔
      (s.include_ixes = [] ∧ s.include_names = [] ∧ s.exclude_ixes = [] ∧
        s.exclude_names = [] ∧ ∀ c ∈ s.children, c.terminal = true)) ∧
    s.set_terminal.children = s.children :=
  ⟨set_terminal_terminal s, rfl⟩

/-- C2: `Spec(t)` has `type = t`, `stack = AUTO`, `process = NONE`,
`terminal = true`, the four filter vectors, `children` and `groups` empty, and
`name` and `ix_name` equal to `R_NilValue`. -/
theorem C2_constructor_defaults (t : String) :
    (Spec.mk_type t).type = t ∧
    (Spec.mk_type t).stack = Spec.Stack.AUTO ∧
    (Spec.mk_type t).process = Spec.Process.NONE ∧
    (Spec.mk_type t).terminal = true ∧
    (Spec.mk_type t).include_ixes = [] ∧
    (Spec.mk_type t).include_names = [] ∧
    (Spec.mk_type t).exclude_ixes = [] ∧
    (Spec.mk_type t).exclude_names = [] ∧
    (Spec.mk_type t).children = [] ∧
    (Spec.mk_type t).groups = [] ∧
    (Spec.mk_type t).name = SEXP.R_NilValue ∧
    (Spec.mk_type t).ix_name = SEXP.R_NilValue :=
  ⟨rfl, rfl, rfl, rfl, rfl, rfl, rfl, rfl, rfl, rfl, rfl, rfl⟩

/-- C3: `set_terminal` is idempotent: run twice in a row it gives the very spec
that one run gives, flag, members and descendants alike. -/
theorem C3_set_terminal_idempotent (s : Spec) :
    s.set_terminal.set_terminal = s.set_terminal := by
  simp [Spec.set_terminal]

/-- C4: when the four filter vectors of `s` are empty and every child has its flag
set (no children included), `set_terminal` sets the flag of `s`, whatever the flag
`t0` and the groups `g` of `s` were before the call. -/
theorem C4_terminal_when_unfiltered (s : Spec) (t0 : Bool) (g : List (SEXP × List Spec))
    (h_ii : s.include_ixes = []) (h_in : s.include_names = [])
    (h_ei : s.exclude_ixes = []) (h_en : s.exclude_names = [])
    (h_ch : ∀ c ∈ s.children, c.terminal = true) :
    (Spec.set_terminal { s with terminal := t0, groups := g }).terminal = true := by
  rw [set_terminal_terminal]
  exact ⟨h_ii, h_in, h_ei, h_en, h_ch⟩

/-- C4 at an instance: a spec whose flag is `false` before the call, with one
terminal child and a group whose member is filtered and not terminal. -/
theorem C4_terminal_when_unfiltered_witness :
    (Spec.set_terminal
      { Examples.parent_of_leaf with
        terminal := false
        groups := [(SEXP.CHARSXP "g", [Examples.filtered_member])] }).terminal = true :=
  C4_terminal_when_unfiltered Examples.parent_of_leaf false
    [(SEXP.CHARSXP "g", [Examples.filtered_member])] rfl rfl rfl rfl (by decide)

/-- A spec that has just received an entry in one of its filter vectors is not
terminal after `set_terminal`. -/
theorem add_entry_not_terminal (d : Spec) (e : FilterEntry) (k : Nat) :
    (d.add_entry e k).set_terminal.terminal = false := by
  rw [← Bool.not_eq_true, set_terminal_terminal]
  rintro ⟨h1, h2, h3, h4, -⟩
  cases e <;> simp [Spec.add_entry, insert_entry] at h1 h2 h3 h4

/-- Writing at a position that exists puts the written value in the list. -/
theorem mem_set_of_getElem? {α : Type} (l : List α) (i : Nat) (a b : α)
    (h : l[i]? = some a) : b ∈ l.set i b := by
  have hi : i < l.length := by
    rcases List.getElem?_eq_some.mp h with ⟨hi, -⟩
    exact hi
  have hi2 : i < (l.set i b).length := by simpa using hi
  have h2 : (l.set i b)[i] = b := by simp
  have h3 := List.getElem_mem hi2
  rwa [h2] at h3

/-- A spec with a child whose stored flag is `false` is not terminal after
`set_terminal`. -/
theorem not_terminal_of_child (s : Spec) (c : Spec) (hc : c ∈ s.children)
    (ht : c.terminal = false) : s.set_terminal.terminal = false := by
  rw [← Bool.not_eq_true, set_terminal_terminal]
  rintro ⟨-, -, -, -, h⟩
  have := h c hc
  simp [ht] at this

/-- C5: let `d` be the node of the tree `root` at the chain of child positions
`path` (the root itself for the empty chain).  Adding one entry `e`, at any
position `k`, to the filter vector of `d` it belongs to and running `set_terminal`
on every node of the path, from `d` up to the root, succeeds and leaves the root
with `terminal = false`. -/
theorem C5_added_entry_reaches_root (root d : Spec) (path : List Nat) (e : FilterEntry)
    (k : Nat) (h : root.descend path = some d) :
    ∃ r, root.edit_and_refinalize (fun x => x.add_entry e k) path = some r ∧
      r.terminal = false := by
  induction path generalizing root with
  | nil => exact ⟨_, rfl, add_entry_not_terminal root e k⟩
  | cons i rest ih =>
    simp only [Spec.descend] at h
    cases hc : root.children[i]? with
    | none => simp [hc] at h
    | some c =>
      simp only [hc] at h
      obtain ⟨c1, hc1, ht⟩ := ih c h
      refine ⟨Spec.set_terminal { root with children := root.children.set i c1 }, ?_, ?_⟩
      · simp only [Spec.edit_and_refinalize, hc, hc1]
      · exact not_terminal_of_child _ c1 (mem_set_of_getElem? _ _ _ _ hc) ht

/-- C5 at an instance: the grandchild at path `[1, 0]` of a root that is terminal
receives an excluded name. -/
theorem C5_added_entry_reaches_root_witness :
    Examples.two_levels.set_terminal.terminal = true ∧
    Examples.two_levels.descend [1, 0] = some Examples.leaf ∧
    ∃ r, Examples.two_levels.edit_and_refinalize
        (fun x => x.add_entry (FilterEntry.exclude_names (SEXP.CHARSXP "x")) 0) [1, 0] = some r ∧
      r.terminal = false :=
  ⟨by decide, rfl,
    C5_added_entry_reaches_root Examples.two_levels Examples.leaf [1, 0]
      (FilterEntry.exclude_names (SEXP.CHARSXP "x")) 0 rfl⟩

/-- C6: two specs that agree on the four filter vectors and on `children` get the
same flag from `set_terminal`, however their `groups` (and the filters and flags
of the group members) differ. -/
theorem C6_groups_not_folded (s1 s2 : Spec)
    (h_ii : s1.include_ixes = s2.include_ixes) (h_in : s1.include_names = s2.include_names)
    (h_ei : s1.exclude_ixes = s2.exclude_ixes) (h_en : s1.exclude_names = s2.exclude_names)
    (h_ch : s1.children = s2.children) :
    s1.set_terminal.terminal = s2.set_terminal.terminal := by
  simp [Spec.set_terminal, h_ii, h_in, h_ei, h_en, h_ch]

/-- C6 at an instance: a spec without groups and the same spec with a group whose
member has a filter and is not terminal; both come out terminal. -/
theorem C6_groups_not_folded_witness :
    Examples.parent_of_leaf.groups ≠ Examples.parent_with_group.groups ∧
    Examples.parent_of_leaf.set_terminal.terminal =
      Examples.parent_with_group.set_terminal.terminal ∧
    Examples.parent_with_group.set_terminal.terminal = true :=
  ⟨by simp [Examples.parent_of_leaf, Examples.parent_with_group, Spec.mk_type],
    C6_groups_not_folded Examples.parent_of_leaf Examples.parent_with_group rfl rfl rfl rfl rfl,
    by decide⟩

/-- Two lists with the same entries are empty together. -/
theorem eq_nil_iff_of_same_entries {α : Type} (l1 l2 : List α)
    (h : ∀ x, x ∈ l1 ↔ x ∈ l2) : l1 = [] ↔ l2 = [] := by
  simp only [List.eq_nil_iff_forall_not_mem, h]

/-- C8: the filter vectors count as sets for terminality.  When each filter vector
of `s2` has the same entries as that of `s1` (as a permutation of it has, and as
it has with some entries repeated) and the children are the same, `set_terminal`
computes the same flag; and an empty include vector puts no restriction: with
`include_ixes` emptied the flag is set exactly when the three other vectors are
empty and the children terminal, likewise with `include_names` emptied, and with
both emptied the flag is set exactly when the exclude vectors are empty and the
children terminal. -/
theorem C8_filters_as_sets (s1 s2 : Spec)
    (h_ii : ∀ x, x ∈ s1.include_ixes ↔ x ∈ s2.include_ixes)
    (h_in : ∀ x, x ∈ s1.include_names ↔ x ∈ s2.include_names)
    (h_ei : ∀ x, x ∈ s1.exclude_ixes ↔ x ∈ s2.exclude_ixes)
    (h_en : ∀ x, x ∈ s1.exclude_names ↔ x ∈ s2.exclude_names)
    (h_ch : s1.children = s2.children) :
    s1.set_terminal.terminal = s2.set_terminal.terminal ∧
    ((Spec.set_terminal { s1 with include_ixes := [] }).terminal = true ↔
        s1.include_names = [] ∧ s1.exclude_ixes = [] ∧ s1.exclude_names = [] ∧
          ∀ c ∈ s1.children, c.terminal = true) ∧
    ((Spec.set_terminal { s1 with include_names := [] }).terminal = true ↔
        s1.include_ixes = [] ∧ s1.exclude_ixes = [] ∧ s1.exclude_names = [] ∧
          ∀ c ∈ s1.children, c.terminal = true) ∧
    ((Spec.set_terminal { s1 with include_ixes := [], include_names := [] }).terminal = true ↔
        s1.exclude_ixes = [] ∧ s1.exclude_names = [] ∧
          ∀ c ∈ s1.children, c.terminal = true) := by
  refine ⟨?_, ?_, ?_, ?_⟩
  · rw [Bool.eq_iff_iff, set_terminal_terminal, set_terminal_terminal,
      eq_nil_iff_of_same_entries _ _ h_ii, eq_nil_iff_of_same_entries _ _ h_in,
      eq_nil_iff_of_same_entries _ _ h_ei, eq_nil_iff_of_same_entries _ _ h_en, h_ch]
  · rw [set_terminal_terminal]
    simp
  · rw [set_terminal_terminal]
    simp
  · rw [set_terminal_terminal]
    simp

/-- C8 at an instance: `[1, 2]` against `[2, 1, 1]` for the included positions and
`[a, b, a]` against `[b, a]` for the excluded names. -/
theorem C8_filters_as_sets_witness :
    Examples.filters_one_way.include_ixes ≠ Examples.filters_other_way.include_ixes ∧
    Examples.filters_one_way.exclude_names ≠ Examples.filters_other_way.exclude_names ∧
    Examples.filters_one_way.set_terminal.terminal =
      Examples.filters_other_way.set_terminal.terminal ∧
    (Spec.set_terminal
      { Examples.filters_one_way with include_ixes := [], include_names := [] }).terminal
      = false :=
  ⟨by decide, by decide,
    (C8_filters_as_sets Examples.filters_one_way Examples.filters_other_way
      (by intro x; simp [Examples.filters_one_way, Examples.filters_other_way, Spec.mk_type]; tauto)
      (by intro x; rfl)
      (by intro x; rfl)
      (by intro x; simp [Examples.filters_one_way, Examples.filters_other_way, Spec.mk_type]; tauto)
      rfl).1,
    by decide⟩

/-- C9: `NilSpec` has type `"NIL"`, no children, no groups, the default modes and
`terminal = true`; the default-constructed `Spec()` has type `""`; the two are
different specs, and they differ in `type` alone: `Spec()` with its type set to
`"NIL"` is `NilSpec`. -/
theorem C9_NilSpec_sentinel :
    NilSpec.type = "NIL" ∧ NilSpec.children = [] ∧ NilSpec.groups = [] ∧
    NilSpec.stack = Spec.Stack.AUTO ∧ NilSpec.process = Spec.Process.NONE ∧
    NilSpec.terminal = true ∧
    Spec.mk_default.type = "" ∧
    NilSpec ≠ Spec.mk_default ∧
    NilSpec = { Spec.mk_default with type := "NIL" } := by
  refine ⟨rfl, rfl, rfl, rfl, rfl, rfl, rfl, ?_, rfl⟩
  intro h
  have ht := congrArg Spec.type h
  revert ht
  decide

/-! ## Terminality over a whole finalized tree -/

mutual
/-- In a tree finalized in one post-order pass, a root with `terminal = true` has
no filter on any spec reached through chains of `children`. -/
theorem finalize_terminal_no_filter_below_children :
    ∀ s : Spec, s.finalize.terminal = true → s.finalize.filter_below_children = false
  | ⟨stack, process, terminal, name, type, include_ixes, include_names, exclude_ixes,
      exclude_names, children, groups, ix_name⟩ => by
    intro h
    have hc := finalize_all_terminal_no_filter_below children
    simp only [Spec.finalize] at h ⊢
    rw [set_terminal_terminal] at h
    obtain ⟨h1, h2, h3, h4, h5⟩ := h
    simp only at h1 h2 h3 h4 h5
    simp only [Spec.set_terminal, Spec.filter_below_children, h1, h2, h3, h4, hc h5]
    rfl
/-- The same over a vector of finalized specs that all have `terminal = true`. -/
theorem finalize_all_terminal_no_filter_below :
    ∀ l : List Spec, (∀ c ∈ finalize_all l, c.terminal = true) →
      filter_below_any (finalize_all l) = false
  | [] => by
    intro _
    rfl
  | c :: cs => by
    intro h
    have h1 := finalize_terminal_no_filter_below_children c
    have h2 := finalize_all_terminal_no_filter_below cs
    simp only [finalize_all, List.mem_cons, forall_eq_or_imp] at h
    simp only [finalize_all, filter_below_any, h1 h.1, h2 h.2]
    rfl
end

/-- C7: a tree in which the root has no filter and no child and one group whose
member includes position 0.  After the post-order pass the member has
`terminal = false` and keeps its filter, the root has `terminal = true`, and a
spec with a non-empty filter vector lies in the root's subtree. -/
theorem C7_group_member_filter_under_terminal_root :
    Examples.group_only.finalize.terminal = true ∧
    Examples.group_only.finalize.groups =
      [(SEXP.CHARSXP "g",
        [{ Spec.mk_type "member" with include_ixes := [0], terminal := false }])] ∧
    Examples.group_only.finalize.filter_in_subtree = true ∧
    Examples.group_only.finalize.filter_below_children = false :=
  ⟨rfl, rfl, rfl, rfl⟩

/-! ## The diagnostic rendering -/

/-- The loop of `to_string` over include names that are character strings: it
succeeds and appends every name, each with its comma, to what it started from. -/
theorem foldlM_include_names (ns : List String) (acc : String) :
    (ns.map SEXP.CHARSXP).foldlM
      (fun (name : String) (nm : SEXP) => do
        let c ← CHAR nm
        pure ((name ++ c) ++ ","))
      acc = Except.ok (acc ++ comma_terminated ns) := by
  induction ns generalizing acc with
  | nil =>
    simp only [List.map_nil, List.foldlM_nil, comma_terminated, String.append_empty]
    rfl
  | cons n ns ih =>
    simp only [List.map_cons, List.foldlM_cons, CHAR, comma_terminated]
    have h := ih ((acc ++ n) ++ ",")
    simp only [String.append_assoc] at h ⊢
    exact h

/-- Each stack mode is in `stack_names`, under its own name. -/
theorem map_at_stack_names (st : Spec.Stack) :
    Spec.map_at Spec.stack_names st = Except.ok st.name := by
  cases st <;> rfl

/-- Each process mode is in `process_names`, under its own name. -/
theorem map_at_process_names (pr : Spec.Process) :
    Spec.map_at Spec.process_names pr = Except.ok pr.name := by
  cases pr <;> rfl

/-- The string `to_string` returns when the include names are the character
strings `ns`. -/
theorem to_string_closed_form (gnuc : Nat) (s : Spec) (ns : List String)
    (h : s.include_names = ns.map SEXP.CHARSXP) :
    s.to_string gnuc = Except.ok
      ("spec[" ++ (s.type ++ comma_terminated ns) ++
        (if gnuc > 5 then " stack:" ++ s.stack.name ++ " process:" ++ s.process.name else "") ++
        " terminal[parent]:" ++ (if s.terminal then "T" else "F") ++ "]") := by
  unfold Spec.to_string
  rw [h, foldlM_include_names, map_at_stack_names, map_at_process_names]
  by_cases hg : gnuc > 5
  · simp only [bind, Except.bind, pure, Except.pure, hg, if_true, String.append_assoc]
  · simp only [bind, Except.bind, pure, Except.pure, hg, if_false, String.append_assoc,
      String.empty_append]

/-- What `to_string` returns is a function of `type`, `stack`, `process`,
`terminal` and `include_names`, whether it is a string or the error of `CHAR`. -/
theorem to_string_congr (gnuc : Nat) (s1 s2 : Spec)
    (h_type : s2.type = s1.type) (h_stack : s2.stack = s1.stack)
    (h_process : s2.process = s1.process) (h_terminal : s2.terminal = s1.terminal)
    (h_names : s2.include_names = s1.include_names) :
    s2.to_string gnuc = s1.to_string gnuc := by
  simp only [Spec.to_string, h_type, h_stack, h_process, h_terminal, h_names]

/-- C10, as amended: two specs that agree on `type`, `stack`, `process`, `terminal`
and on the whole vector `include_names` get the same result from `to_string`,
whatever their other members; and when the include names are the character
strings `ns`, the result is the string made of `spec[`, the type, every name of
`ns` in order each followed by a comma, then, only for `__GNUC__ > 5`, ` stack:`
with the stack mode name and ` process:` with the process mode name, then
` terminal[parent]:` with `T` when `terminal` is true and `F` when not, then `]`. -/
theorem C10_to_string_rendering (gnuc : Nat) (s1 s2 : Spec)
    (h_type : s2.type = s1.type) (h_stack : s2.stack = s1.stack)
    (h_process : s2.process = s1.process) (h_terminal : s2.terminal = s1.terminal)
    (h_names : s2.include_names = s1.include_names) :
    s2.to_string gnuc = s1.to_string gnuc ∧
    ∀ ns : List String, s1.include_names = ns.map SEXP.CHARSXP →
      s1.to_string gnuc = Except.ok
        ("spec[" ++ (s1.type ++ comma_terminated ns) ++
          (if gnuc > 5 then " stack:" ++ s1.stack.name ++ " process:" ++ s1.process.name
            else "") ++
          " terminal[parent]:" ++ (if s1.terminal then "T" else "F") ++ "]") :=
  ⟨to_string_congr gnuc s1 s2 h_type h_stack h_process h_terminal h_names,
    fun ns h => to_string_closed_form gnuc s1 ns h⟩

/-- C10 as amended, at an instance: two specs with the include names `x`, `y` that
differ in alias, excluded positions and children. -/
theorem C10_to_string_rendering_witness :
    Examples.names_xy_other.name ≠ Examples.names_xy.name ∧
    Examples.names_xy_other.to_string 6 = Examples.names_xy.to_string 6 ∧
    Examples.names_xy.to_string 6 =
      Except.ok "spec[listx,y, stack:AUTO process:NONE terminal[parent]:F]" :=
  ⟨by decide,
    (C10_to_string_rendering 6 Examples.names_xy Examples.names_xy_other
      rfl rfl rfl rfl rfl).1,
    (C10_to_string_rendering 6 Examples.names_xy Examples.names_xy_other
      rfl rfl rfl rfl rfl).2 ["x", "y"] rfl⟩

/-- C10 as stated fails: `names_xy` and `names_xz` agree on `type`, `stack`,
`process`, `terminal` and on the first include name, and `to_string` renders the
second name too, so the two strings differ; and for `__GNUC__` at most 5 the
string shows neither mode name. -/
theorem C10_first_name_only_counterexample :
    Examples.names_xy.type = Examples.names_xz.type ∧
    Examples.names_xy.stack = Examples.names_xz.stack ∧
    Examples.names_xy.process = Examples.names_xz.process ∧
    Examples.names_xy.terminal = Examples.names_xz.terminal ∧
    Examples.names_xy.include_names.head? = Examples.names_xz.include_names.head? ∧
    Examples.names_xy.to_string 6 =
      Except.ok "spec[listx,y, stack:AUTO process:NONE terminal[parent]:F]" ∧
    Examples.names_xz.to_string 6 =
      Except.ok "spec[listx,z, stack:AUTO process:NONE terminal[parent]:F]" ∧
    Examples.names_xy.to_string 6 ≠ Examples.names_xz.to_string 6 ∧
    Examples.names_xy.to_string 5 = Except.ok "spec[listx,y, terminal[parent]:F]" := by
  have h1 : Examples.names_xy.to_string 6 =
      Except.ok "spec[listx,y, stack:AUTO process:NONE terminal[parent]:F]" := rfl
  have h2 : Examples.names_xz.to_string 6 =
      Except.ok "spec[listx,z, stack:AUTO process:NONE terminal[parent]:F]" := rfl
  refine ⟨rfl, rfl, rfl, rfl, rfl, h1, h2, ?_, rfl⟩
  rw [h1, h2]
  intro h
  injection h with h
  revert h
  decide

/-! ## The matcher -/

/-- `match_obj` over the eligible elements and what each of them emits. -/
theorem match_obj_eq (s : Spec) (v : Value) :
    s.match_obj v =
      match v with
      | Value.scalar _ => { records := [], mismatches := [{ spec_type := s.type, ix := -1 }] }
      | Value.container _ elems => MatchResult.concat ((s.eligible_elements elems).map s.emit) := by
  cases s
  cases v <;> rfl

/-- A sublist of the branches gives a sublist of the concatenated results. -/
theorem sublist_flatMap {α β : Type} (f : α → List β) {l1 l2 : List α}
    (h : l1.Sublist l2) : (l1.flatMap f).Sublist (l2.flatMap f) := by
  induction h with
  | slnil => simp
  | cons a _ ih =>
    simp only [List.flatMap_cons]
    exact List.sublist_append_of_sublist_right ih
  | cons₂ a _ ih =>
    simp only [List.flatMap_cons]
    exact List.Sublist.append (List.Sublist.refl _) ih

/-- The entries of a vector after one entry was put in. -/
theorem mem_insert_entry {α : Type} (l : List α) (k : Nat) (e x : α) :
    x ∈ insert_entry l k e ↔ x = e ∨ x ∈ l := by
  have h : x ∈ l ↔ x ∈ l.take k ∨ x ∈ l.drop k := by
    rw [← List.mem_append, List.take_append_drop]
  simp only [insert_entry, List.mem_append, List.mem_cons, h]
  tauto

/-- An element eligible after a narrowing entry was added was eligible before,
whether the stored flag was kept (`t` is the old flag) or computed again (it is
then `false`). -/
theorem eligible_add_entry (s : Spec) (e : FilterEntry) (k : Nat) (h : s.narrowing_entry e)
    (t : Bool) (ht : t = true → s.terminal = true) (p : Int) (n : SEXP) :
    Spec.eligible { s.add_entry e k with terminal := t } p n = true → s.eligible p n = true := by
  cases hs : s.terminal with
  | true => intro _; simp [Spec.eligible, hs]
  | false =>
    have ht2 : t = false := by
      cases t with
      | false => rfl
      | true => simp [hs] at ht
    subst ht2
    cases e <;>
      simp only [Spec.narrowing_entry] at h <;>
      simp [Spec.eligible, Spec.add_entry, mem_insert_entry, hs, h] <;>
      tauto

/-- Adding a filter entry leaves the stored flag as it is. -/
theorem add_entry_terminal (s : Spec) (e : FilterEntry) (k : Nat) :
    (s.add_entry e k).terminal = s.terminal := by
  cases e <;> rfl

/-- What an eligible element emits does not depend on the filter vectors. -/
theorem emit_add_entry (s : Spec) (e : FilterEntry) (k : Nat) :
    (s.add_entry e k).emit = s.emit := by
  cases e <;> rfl

/-- The records of two specs that emit the same, the eligible elements of the
first being among those of the second. -/
theorem records_sublist_of_eligible (s1 s2 : Spec) (h_emit : s1.emit = s2.emit)
    (h : ∀ p n, s1.eligible p n = true → s2.eligible p n = true) (v : Value) :
    (s1.match_obj v).records.Sublist (s2.match_obj v).records := by
  rw [match_obj_eq, match_obj_eq]
  cases v with
  | scalar obj => exact List.Sublist.refl _
  | container obj elems =>
    simp only [MatchResult.concat, h_emit]
    apply sublist_flatMap
    apply List.Sublist.map
    exact List.monotone_filter_right _ (fun x hx => h _ _ hx)

/-- C11, as amended: filter monotonicity of the matcher.  Let `e` be an exclude
entry, or an include entry for a spec `s` whose two include vectors are both
empty, added to `s` at any position `k`.  Whether the stored flag is kept or
`set_terminal` is run again, every element eligible after the addition was
eligible before it; for every list of elements the eligible ones after the
addition, with their positions, are a sublist of those before; and for every
value the records `match` returns after the addition are a sublist of those it
returned before. -/
theorem C11_filter_monotonicity (s : Spec) (e : FilterEntry) (k : Nat)
    (h : s.narrowing_entry e) :
    (∀ p n, (s.add_entry e k).eligible p n = true → s.eligible p n = true) ∧
    (∀ p n, (s.add_entry e k).set_terminal.eligible p n = true → s.eligible p n = true) ∧
    (∀ elems, ((s.add_entry e k).eligible_elements elems).Sublist
      (s.eligible_elements elems)) ∧
    (∀ elems, ((s.add_entry e k).set_terminal.eligible_elements elems).Sublist
      (s.eligible_elements elems)) ∧
    (∀ v, ((s.add_entry e k).match_obj v).records.Sublist (s.match_obj v).records) ∧
    (∀ v, ((s.add_entry e k).set_terminal.match_obj v).records.Sublist
      (s.match_obj v).records) := by
  have key1 : ∀ p n, (s.add_entry e k).eligible p n = true → s.eligible p n = true :=
    fun p n => eligible_add_entry s e k h (s.add_entry e k).terminal
      (fun ht => by rw [← add_entry_terminal s e k]; exact ht) p n
  have key2 : ∀ p n, (s.add_entry e k).set_terminal.eligible p n = true →
      s.eligible p n = true :=
    fun p n => eligible_add_entry s e k h (s.add_entry e k).set_terminal.terminal
      (fun ht => by rw [add_entry_not_terminal] at ht; exact absurd ht (by decide)) p n
  refine ⟨key1, key2, ?_, ?_, ?_, ?_⟩
  · exact fun elems => List.monotone_filter_right _ (fun x hx => key1 _ _ hx)
  · exact fun elems => List.monotone_filter_right _ (fun x hx => key2 _ _ hx)
  · exact records_sublist_of_eligible _ _ (emit_add_entry s e k) key1
  · exact records_sublist_of_eligible _ _ (emit_add_entry s e k) key2

/-- C11 as amended, at two instances over `{a: 1, b: 2, c: 3}` and a spec that
excludes the name `b` and has both include vectors empty, the eligible positions
being `0, 2`: excluding position 0 leaves position `2`, and including the name
`c` leaves position `2` too, in the eligible elements and in the records. -/
theorem C11_filter_monotonicity_witness :
    (Examples.excluding_b.eligible_elements Examples.elems_abc).map (fun x => x.1) = [0, 2] ∧
    ((Examples.excluding_b.add_entry (FilterEntry.exclude_ixes 0) 0).eligible_elements
      Examples.elems_abc).map (fun x => x.1) = [2] ∧
    (((Examples.excluding_b.add_entry (FilterEntry.exclude_ixes 0) 0).eligible_elements
        Examples.elems_abc).Sublist
      (Examples.excluding_b.eligible_elements Examples.elems_abc)) ∧
    (Examples.excluding_b.include_ixes = [] ∧ Examples.excluding_b.include_names = []) ∧
    ((Examples.excluding_b.match_obj
      (Value.container (SEXP.OTHER 0) Examples.elems_abc)).records.map (fun m => m.ix)
        = [0, 2]) ∧
    (((Examples.excluding_b.add_entry (FilterEntry.include_names (SEXP.CHARSXP "c"))
        0).set_terminal.match_obj
      (Value.container (SEXP.OTHER 0) Examples.elems_abc)).records.map (fun m => m.ix)
        = [2]) ∧
    (((Examples.excluding_b.add_entry (FilterEntry.include_names (SEXP.CHARSXP "c"))
        0).set_terminal.match_obj (Value.container (SEXP.OTHER 0) Examples.elems_abc)).records.Sublist
      (Examples.excluding_b.match_obj
        (Value.container (SEXP.OTHER 0) Examples.elems_abc)).records) :=
  ⟨rfl, rfl,
    (C11_filter_monotonicity Examples.excluding_b (FilterEntry.exclude_ixes 0) 0
      trivial).2.2.1 Examples.elems_abc,
    ⟨rfl, rfl⟩, rfl, rfl,
    (C11_filter_monotonicity Examples.excluding_b
      (FilterEntry.include_names (SEXP.CHARSXP "c")) 0 ⟨rfl, rfl⟩).2.2.2.2.2
      (Value.container (SEXP.OTHER 0) Examples.elems_abc)⟩

/-- C11 as stated fails in its include half.  The spec `including_0` includes
position 0 and its vector `include_names` is empty; adding the name `c` to that
empty vector makes the element `c` at position 2 of `{a: 1, b: 2, c: 3}` eligible,
which it was not: the eligible positions, and the positions of the records of
`match`, grow from `0` to `0, 2`, the stored flag kept or computed again. -/
theorem C11_include_entry_counterexample :
    Examples.including_0.include_names = [] ∧
    Examples.including_0.set_terminal.terminal = Examples.including_0.terminal ∧
    Examples.including_0.eligible 2 (SEXP.CHARSXP "c") = false ∧
    (Examples.including_0.add_entry (FilterEntry.include_names (SEXP.CHARSXP "c"))
      0).eligible 2 (SEXP.CHARSXP "c") = true ∧
    (Examples.including_0.add_entry (FilterEntry.include_names (SEXP.CHARSXP "c"))
      0).set_terminal.eligible 2 (SEXP.CHARSXP "c") = true ∧
    (Examples.including_0.eligible_elements Examples.elems_abc).map (fun x => x.1) = [0] ∧
    ((Examples.including_0.add_entry (FilterEntry.include_names (SEXP.CHARSXP "c"))
      0).eligible_elements Examples.elems_abc).map (fun x => x.1) = [0, 2] ∧
    (Examples.including_0.match_obj
      (Value.container (SEXP.OTHER 0) Examples.elems_abc)).records.map (fun m => m.ix) = [0] ∧
    ((Examples.including_0.add_entry (FilterEntry.include_names (SEXP.CHARSXP "c"))
      0).set_terminal.match_obj
        (Value.container (SEXP.OTHER 0) Examples.elems_abc)).records.map (fun m => m.ix)
      = [0, 2] ∧
    ¬ ((Examples.including_0.add_entry (FilterEntry.include_names (SEXP.CHARSXP "c"))
        0).eligible_elements Examples.elems_abc).Sublist
      (Examples.including_0.eligible_elements Examples.elems_abc) := by
  refine ⟨rfl, rfl, rfl, rfl, rfl, rfl, rfl, rfl, rfl, ?_⟩
  intro hsub
  have hlen := hsub.length_le
  have h1 : ((Examples.including_0.add_entry (FilterEntry.include_names (SEXP.CHARSXP "c"))
      0).eligible_elements Examples.elems_abc).length = 2 := rfl
  have h2 : (Examples.including_0.eligible_elements Examples.elems_abc).length = 1 := rfl
  omega

/-- With the stored flag set, every element is eligible. -/
theorem eligible_elements_terminal (s : Spec) (h : s.terminal = true)
    (elems : List (SEXP × Value)) : s.eligible_elements elems = elems.enum := by
  unfold Spec.eligible_elements
  rw [List.filter_eq_self]
  intro x _
  simp [Spec.eligible, h]

/-- A spec with no children and no groups emits the leaf record. -/
theorem emit_leaf (s : Spec) (hc : s.children = []) (hg : s.groups = []) :
    s.emit = fun x =>
      { records := [SpecMatch.mk4 (x.1 : Int) s.name x.2.1 x.2.2.obj], mismatches := [] } := by
  funext x
  simp [Spec.emit, hc, hg]

/-- Branches of one record each and no mismatch concatenate to the list of the
records. -/
theorem concat_single_records {α : Type} (f : α → SpecMatch) (l : List α) :
    MatchResult.concat (l.map (fun x => { records := [f x], mismatches := [] })) =
      { records := l.map f, mismatches := [] } := by
  induction l with
  | nil => rfl
  | cons a l ih =>
    simp only [MatchResult.concat, List.map_cons, List.flatMap_cons, MatchResult.mk.injEq] at ih ⊢
    exact ⟨by rw [ih.1]; rfl, by rw [ih.2]; rfl⟩

/-- C12: a spec whose flag `terminal` is set and that has no children and no groups,
matched against a container of `elems.length` elements, returns no mismatch and
exactly one leaf record per element, in source order: the `i`-th record has
`ix = i` (from zero), `spec_name` the name of the spec, `elem_name` the name of the
`i`-th element and `obj` the `i`-th element. -/
theorem C12_terminal_leaf_match (s : Spec) (obj : SEXP) (elems : List (SEXP × Value))
    (h_t : s.terminal = true) (h_c : s.children = []) (h_g : s.groups = []) :
    (s.match_obj (Value.container obj elems)).records =
      elems.enum.map (fun x => SpecMatch.mk4 (x.1 : Int) s.name x.2.1 x.2.2.obj) ∧
    (s.match_obj (Value.container obj elems)).mismatches = [] ∧
    (s.match_obj (Value.container obj elems)).records.length = elems.length ∧
    ∀ (i : Nat) (hi : i < elems.length),
      (s.match_obj (Value.container obj elems)).records[i]? =
        some { ix := (i : Int), spec_name := s.name, elem_name := elems[i].1,
               obj := elems[i].2.obj } := by
  have h : s.match_obj (Value.container obj elems) =
      { records := elems.enum.map (fun x => SpecMatch.mk4 (x.1 : Int) s.name x.2.1 x.2.2.obj),
        mismatches := [] } := by
    rw [match_obj_eq]
    simp only [eligible_elements_terminal s h_t, emit_leaf s h_c h_g]
    exact concat_single_records _ _
  rw [h]
  refine ⟨rfl, rfl, by simp [List.enum_length], ?_⟩
  intro i hi
  simp [List.getElem?_enum, List.getElem?_eq_getElem hi, SpecMatch.mk4]

/-- C12 at an instance: the terminal leaf spec against `[10, 20, 30]` gives three
records, at the positions 0, 1, 2. -/
theorem C12_terminal_leaf_match_witness :
    (Examples.leaf.match_obj Examples.value_10_20_30).records =
      [ { ix := 0, spec_name := SEXP.R_NilValue, elem_name := SEXP.R_NilValue,
          obj := SEXP.OTHER 10 },
        { ix := 1, spec_name := SEXP.R_NilValue, elem_name := SEXP.R_NilValue,
          obj := SEXP.OTHER 20 },
        { ix := 2, spec_name := SEXP.R_NilValue, elem_name := SEXP.R_NilValue,
          obj := SEXP.OTHER 30 } ] ∧
    (Examples.leaf.match_obj Examples.value_10_20_30).records.map (fun m => m.ix) = [0, 1, 2] :=
  ⟨(C12_terminal_leaf_match Examples.leaf (SEXP.OTHER 0)
      [(SEXP.R_NilValue, Value.scalar (SEXP.OTHER 10)),
       (SEXP.R_NilValue, Value.scalar (SEXP.OTHER 20)),
       (SEXP.R_NilValue, Value.scalar (SEXP.OTHER 30))] rfl rfl rfl).1,
    rfl⟩

/-! ## Stale flags, match records, frame and defaults -/

/-- C13: `set_terminal` reads the stored flags of the children and goes no deeper.
In the tree `stale_root`, the grandchild includes position 0 and the child
between still stores `terminal = true` (its own `set_terminal` would clear it);
`set_terminal` on the root alone gives the root `terminal = true`, where the
post-order pass over the whole tree gives it `false`. -/
theorem C13_stale_child_flag :
    ∃ root child grandchild : Spec,
      root.children = [child] ∧ child.children = [grandchild] ∧
      grandchild.include_ixes ≠ [] ∧
      child.terminal = true ∧ child.set_terminal.terminal = false ∧
      root.set_terminal.terminal = true ∧ root.finalize.terminal = false :=
  ⟨Examples.stale_root, Examples.stale_child, Examples.stale_grandchild,
    rfl, rfl, by decide, rfl, rfl, rfl, rfl⟩

/-- C14: the four-argument constructor stores the four values given; the
three-argument constructor stores `ix`, `spec_name` and `obj` and leaves
`elem_name` the handle its storage held, which is `R_NilValue` only by accident.
Built over a stale handle `stale`, the record has `elem_name` other than
`R_NilValue` and `to_string` renders `elem_name:stale`; over a handle that is not a
character string `to_string` fails in `CHAR`; only over `R_NilValue` does it render
`elem_name:NULL`. -/
theorem C14_three_argument_constructor_elem_name :
    (∀ (ix : Int) (spec_name elem_name obj : SEXP),
      (SpecMatch.mk4 ix spec_name elem_name obj).ix = ix ∧
      (SpecMatch.mk4 ix spec_name elem_name obj).spec_name = spec_name ∧
      (SpecMatch.mk4 ix spec_name elem_name obj).elem_name = elem_name ∧
      (SpecMatch.mk4 ix spec_name elem_name obj).obj = obj) ∧
    (∀ (junk : SEXP) (ix : Int) (spec_name obj : SEXP),
      (SpecMatch.mk3 junk ix spec_name obj).ix = ix ∧
      (SpecMatch.mk3 junk ix spec_name obj).spec_name = spec_name ∧
      (SpecMatch.mk3 junk ix spec_name obj).obj = obj ∧
      (SpecMatch.mk3 junk ix spec_name obj).elem_name = junk) ∧
    (SpecMatch.mk3 (SEXP.CHARSXP "stale") 0 SEXP.R_NilValue (SEXP.OTHER 1)).elem_name ≠
      SEXP.R_NilValue ∧
    (SpecMatch.mk3 (SEXP.CHARSXP "stale") 0 SEXP.R_NilValue (SEXP.OTHER 1)).to_string =
      Except.ok "match[ix:0 spec_name:NULL elem_name:stale]" ∧
    (SpecMatch.mk3 (SEXP.OTHER 7) 0 SEXP.R_NilValue (SEXP.OTHER 1)).to_string =
      Except.error "CHAR() can only be applied to a CHARSXP" ∧
    (SpecMatch.mk3 SEXP.R_NilValue 0 SEXP.R_NilValue (SEXP.OTHER 1)).to_string =
      Except.ok "match[ix:0 spec_name:NULL elem_name:NULL]" :=
  ⟨fun _ _ _ _ => ⟨rfl, rfl, rfl, rfl⟩, fun _ _ _ _ => ⟨rfl, rfl, rfl, rfl⟩,
    by decide, rfl, rfl, rfl⟩

/-- C15: `set_terminal` changes no member of `s` but `terminal`: `stack`, `process`,
`name`, `type`, the four filter vectors, `children` (each child whole, its flag
and subtree included), `groups` and `ix_name` are what they were, so that the
result is `s` with the flag replaced. -/
theorem C15_set_terminal_frame (s : Spec) :
    s.set_terminal.stack = s.stack ∧
    s.set_terminal.process = s.process ∧
    s.set_terminal.name = s.name ∧
    s.set_terminal.type = s.type ∧
    s.set_terminal.include_ixes = s.include_ixes ∧
    s.set_terminal.include_names = s.include_names ∧
    s.set_terminal.exclude_ixes = s.exclude_ixes ∧
    s.set_terminal.exclude_names = s.exclude_names ∧
    s.set_terminal.children = s.children ∧
    s.set_terminal.groups = s.groups ∧
    s.set_terminal.ix_name = s.ix_name ∧
    s.set_terminal = { s with terminal := s.set_terminal.terminal } :=
  ⟨rfl, rfl, rfl, rfl, rfl, rfl, rfl, rfl, rfl, rfl, rfl, rfl⟩

/-- C16: the default `terminal = true` of the constructor is what `set_terminal`
computes: on `Spec(t)`, for every `t`, and on `NilSpec`, `set_terminal` returns
the spec it was given, the flag still `true`. -/
theorem C16_default_flag_is_final (t : String) :
    (Spec.mk_type t).set_terminal = Spec.mk_type t ∧
    (Spec.mk_type t).set_terminal.terminal = true ∧
    NilSpec.set_terminal = NilSpec ∧
    NilSpec.set_terminal.terminal = true :=
  ⟨rfl, rfl, rfl, rfl⟩

end Unnest
